import Mathlib

/-!
Verification development for the part-render partial-compilation pipeline.

Shallow embedding of the core pipeline: the identifier/import analyzer
(`DependencyResolver.analyzeDependencies`), the module resolver
(`DependencyResolver.resolveModulePath`), the import suggester
(`DependencyResolver.suggestImportsForIdentifiers`), the assembler
(`SmartCompiler.generateFullCode` / `wrapComponentCode`), the compiler entry
point (`SmartCompiler.compile`) and the snippet compiler
(`JSXCompiler.compileJSXSnippet`).

The TypeScript parser, the node path library, and the esbuild bundler are
external collaborators; they are modelled as oracle parameters (a fragment is
supplied together with its parsed syntax tree, resolution and build outcomes
are oracle functions).  Everything this repository's code computes from those
inputs is embedded as executable Lean definitions.
-/

namespace PartRender

/-! Basic utilities mirroring the JavaScript runtime semantics that the code
relies on: first-match association lookup (`Map.get`), insertion-ordered
update (`Map.set` keeps the position of an existing key, appends a fresh one),
and insertion-ordered string sets (`Set.add`). -/

/-- First binding for a key in an insertion-ordered association list
(JS `Map.prototype.get`). -/
def lookupA {α : Type} (m : List (String × α)) (k : String) : Option α :=
  match m with
  | [] => none
  | (k', v) :: rest => if k' = k then some v else lookupA rest k

/-- JS `Map.prototype.set`: replace the value in place when the key exists,
append a new binding otherwise. -/
def mapSet {α : Type} (m : List (String × α)) (k : String) (v : α) :
    List (String × α) :=
  if m.any (fun p => p.1 = k) then
    m.map (fun p => if p.1 = k then (k, v) else p)
  else
    m ++ [(k, v)]

/-- Keys of an association list, in insertion order. -/
def keysOf {α : Type} (m : List (String × α)) : List String :=
  m.map Prod.fst

/-- JS `Set.prototype.add`: append unless already present. -/
def setAdd (l : List String) (x : String) : List String :=
  if l.contains x then l else l ++ [x]

/-- Insertion-ordered deduplication, as iterating a JS `Set` built by
repeated `add` calls over a list. -/
def setFromList (l : List String) : List String :=
  l.foldl setAdd []

/-- Character-list prefix test (used by the substring search). -/
def isPrefixL : List Char → List Char → Bool
  | [], _ => true
  | _ :: _, [] => false
  | a :: as, b :: bs => a == b && isPrefixL as bs

/-- Substring search over character lists. -/
def isSubL (needle : List Char) : List Char → Bool
  | [] => needle.isEmpty
  | c :: rest => isPrefixL needle (c :: rest) || isSubL needle rest

/-- JS `String.prototype.includes`. -/
def jsIncludes (hay needle : String) : Bool :=
  isSubL needle.data hay.data

/-- JS `String.prototype.startsWith`. -/
def jsStartsWith (s pre : String) : Bool :=
  isPrefixL pre.data s.data

/-! Data model of the analyzer (`DependencyResolver.ts`). -/

/-- One bound name of an import statement, as produced by
`DependencyResolver.extractImports` (field `alias` of the source is spelled
`aliasName` here). -/
structure ImportSpecifier where
  name : String
  aliasName : Option String := none
  isDefault : Bool := false
  isNamespace : Bool := false
  deriving Repr, DecidableEq

/-- One import statement (`ImportInfo` of the source). -/
structure ImportInfo where
  module : String
  specifiers : List ImportSpecifier
  isRelative : Bool
  resolvedPath : Option String := none
  deriving Repr, DecidableEq

/-- Kind of one entry of an import clause in the parsed tree: default import,
namespace import (`* as x`), or named import. -/
inductive ImpSpecKind where
  | dflt
  | nspace
  | named
  deriving Repr, DecidableEq

/-- One entry of an import clause as the parser delivers it: the local
binding name, and for `a as b` the original exported name `a` in
`propertyName` (with `localName = b`). -/
structure ImpClauseItem where
  kind : ImpSpecKind
  localName : String
  propertyName : Option String := none
  deriving Repr, DecidableEq

/-- Shallow embedding of the TypeScript syntax tree nodes the analyzer
inspects.  `seqNode` stands for any container node with two children (source
file, block, argument list, ...); `modDecl` carries the `export` / `default`
modifier flags of the wrapped statement; `importDecl` carries the
parsed clause; the remaining constructors match the `ts.is*` checks used by
`extractIdentifiers` and `extractExportsFromFile`. -/
inductive Node where
  | emptyNode
  | ident (name : String)
  | strLit (s : String)
  | propertyAccess (obj prop : Node)
  | callExpr (fn arg : Node)
  | varDecl (name init : Node)
  | funDecl (name : Option String) (body : Node)
  | classDecl (name : Option String) (body : Node)
  | importDecl (moduleName : String) (clause : List ImpClauseItem)
  | exportNamedDecl (names : List String)
  | modDecl (hasExport hasDefault : Bool) (inner : Node)
  | seqNode (a b : Node)
  deriving Repr, DecidableEq

/-- Identifier nodes appearing inside an import clause entry (both the
`propertyName` and the local name are identifier nodes in the tree; neither
sits under a property-access expression). -/
def clauseIdents (it : ImpClauseItem) : List String :=
  match it.propertyName with
  | some p => [p, it.localName]
  | none => [it.localName]

/-- The `used` half of `DependencyResolver.extractIdentifiers`: walk every
node; record an identifier iff its parent is not a `PropertyAccessExpression`.
The boolean argument says whether the current node's parent is a
property access (both children of `a.b` have the access as parent). -/
def usedIdents : Node → Bool → List String
  | .emptyNode, _ => []
  | .ident n, pa => if pa then [] else [n]
  | .strLit _, _ => []
  | .propertyAccess o p, _ => usedIdents o true ++ usedIdents p true
  | .callExpr f a, _ => usedIdents f false ++ usedIdents a false
  | .varDecl n i, _ => usedIdents n false ++ usedIdents i false
  | .funDecl n b, _ => n.toList ++ usedIdents b false
  | .classDecl n b, _ => n.toList ++ usedIdents b false
  | .importDecl _ clause, _ => clause.flatMap clauseIdents
  | .exportNamedDecl names, _ => names
  | .modDecl _ _ inner, _ => usedIdents inner false
  | .seqNode a b, _ => usedIdents a false ++ usedIdents b false

/-- The `declared` half of `DependencyResolver.extractIdentifiers`: names of
variable declarations (with identifier name), function declarations and class
declarations, collected flat over the whole tree. -/
def declaredIdents : Node → List String
  | .emptyNode => []
  | .ident _ => []
  | .strLit _ => []
  | .propertyAccess o p => declaredIdents o ++ declaredIdents p
  | .callExpr f a => declaredIdents f ++ declaredIdents a
  | .varDecl n i =>
      (match n with | .ident s => [s] | _ => []) ++ declaredIdents n ++ declaredIdents i
  | .funDecl n b => n.toList ++ declaredIdents b
  | .classDecl n b => n.toList ++ declaredIdents b
  | .importDecl _ _ => []
  | .exportNamedDecl _ => []
  | .modDecl _ _ inner => declaredIdents inner
  | .seqNode a b => declaredIdents a ++ declaredIdents b

/-- Specification-side walk: every identifier reference in the tree together
with the flag "my parent is a property-access expression".  Used to state the
claim about which references land in `usedIdentifiers`. -/
def identOccurrences : Node → Bool → List (String × Bool)
  | .emptyNode, _ => []
  | .ident n, pa => [(n, pa)]
  | .strLit _, _ => []
  | .propertyAccess o p, _ => identOccurrences o true ++ identOccurrences p true
  | .callExpr f a, _ => identOccurrences f false ++ identOccurrences a false
  | .varDecl n i, _ => identOccurrences n false ++ identOccurrences i false
  | .funDecl n b, _ => (n.toList.map (·, false)) ++ identOccurrences b false
  | .classDecl n b, _ => (n.toList.map (·, false)) ++ identOccurrences b false
  | .importDecl _ clause, _ => (clause.flatMap clauseIdents).map (·, false)
  | .exportNamedDecl names, _ => names.map (·, false)
  | .modDecl _ _ inner, _ => identOccurrences inner false
  | .seqNode a b, _ => identOccurrences a false ++ identOccurrences b false

/-- Convert a parsed clause entry to the `ImportSpecifier` record exactly as
`DependencyResolver.extractImports` builds it. -/
def toSpecifier (it : ImpClauseItem) : ImportSpecifier :=
  match it.kind with
  | .dflt => { name := it.localName, isDefault := true }
  | .nspace => { name := it.localName, isNamespace := true }
  | .named =>
      match it.propertyName with
      | some p => { name := p, aliasName := some it.localName }
      | none => { name := it.localName }

/-- `DependencyResolver.extractImports`: collect every import declaration of
the tree, in source order, into `ImportInfo` records. -/
def extractImports : Node → List ImportInfo
  | .importDecl m clause =>
      [{ module := m
         specifiers := clause.map toSpecifier
         isRelative := jsStartsWith m "." || jsStartsWith m "/" }]
  | .propertyAccess o p => extractImports o ++ extractImports p
  | .callExpr f a => extractImports f ++ extractImports a
  | .varDecl n i => extractImports n ++ extractImports i
  | .funDecl _ b => extractImports b
  | .classDecl _ b => extractImports b
  | .modDecl _ _ inner => extractImports inner
  | .seqNode a b => extractImports a ++ extractImports b
  | _ => []

/-- The fixed builtin list of `DependencyResolver.isBuiltinIdentifier`. -/
def builtinsList : List String :=
  ["console", "window", "document", "process", "global",
   "Array", "Object", "String", "Number", "Boolean", "Date",
   "Promise", "Map", "Set", "Math", "JSON", "Error",
   "undefined", "null", "true", "false"]

/-- `DependencyResolver.isBuiltinIdentifier`. -/
def isBuiltinIdentifier (id : String) : Bool :=
  builtinsList.contains id

/-! Module resolver (`DependencyResolver.resolveModulePath`).  The
TypeScript-config resolution and node's `require.resolve` are external; they
appear as oracle functions returning `none` on failure (a `require.resolve`
failure throws in the source and is caught by the surrounding `try`). -/

/-- A resolution oracle: module specifier and requesting file to an optional
resolved path. -/
def ResolveOracle : Type := String → Option String → Option String

/-- Cache key of `resolveModulePath`; an empty `fromFile` string is falsy in
JS, so it also maps to `root`. -/
def cacheKeyOf (moduleName : String) (fromFile : Option String) : String :=
  moduleName ++ ":" ++
    (match fromFile with
     | some s => if s = "" then "root" else s
     | none => "root")

/-- `DependencyResolver.resolveModulePath`: consult the per-instance cache,
then the TypeScript resolution, then node resolution; cache only successes;
return `none` (null) when everything fails.  A cached empty string would be
falsy, hence the `get(...) || null` guard. -/
def resolveModulePath (tsResolve nodeResolve : ResolveOracle)
    (cache : List (String × String)) (moduleName : String)
    (fromFile : Option String) : Option String × List (String × String) :=
  let key := cacheKeyOf moduleName fromFile
  match lookupA cache key with
  | some v => (if v = "" then none else some v, cache)
  | none =>
      match tsResolve moduleName fromFile with
      | some p => (some p, mapSet cache key p)
      | none =>
          match nodeResolve moduleName fromFile with
          | some p => (some p, mapSet cache key p)
          | none => (none, cache)

/-- Analysis result for one fragment (`DependencyContext` of the source).
Sets are represented as insertion-ordered duplicate-free lists. -/
structure DependencyContext where
  imports : List ImportInfo
  usedIdentifiers : List String
  missingIdentifiers : List String
  resolvedModules : List (String × String)
  deriving Repr, DecidableEq

/-- The resolution loop at the end of `analyzeDependencies`: resolve each
statement, record successes in `resolvedModules` and on the statement's
`resolvedPath` field, threading the resolver cache. -/
def resolveImportsLoop (tsResolve nodeResolve : ResolveOracle)
    (filePath : Option String) :
    List ImportInfo → List (String × String) → List (String × String) →
    List ImportInfo × List (String × String) × List (String × String)
  | [], cache, resolved => ([], resolved, cache)
  | imp :: rest, cache, resolved =>
      let (r, cache') := resolveModulePath tsResolve nodeResolve cache imp.module filePath
      let imp' := match r with
        | some p => { imp with resolvedPath := some p }
        | none => imp
      let resolved' := match r with
        | some p => mapSet resolved imp.module p
        | none => resolved
      let (imps, resolvedEnd, cacheEnd) :=
        resolveImportsLoop tsResolve nodeResolve filePath rest cache' resolved'
      (imp' :: imps, resolvedEnd, cacheEnd)

/-- `DependencyResolver.analyzeDependencies` on the parsed fragment tree:
extract imports, collect used and declared identifiers, compute
`missingIdentifiers = used minus declared minus builtins`, and resolve
every import's module path. -/
def analyzeDependencies (tsResolve nodeResolve : ResolveOracle)
    (cache : List (String × String)) (ast : Node) (filePath : Option String) :
    DependencyContext × List (String × String) :=
  let imports := extractImports ast
  let used := setFromList (usedIdents ast false)
  let declared := setFromList (declaredIdents ast)
  let missing := used.filter
    (fun id => !(declared.contains id) && !(isBuiltinIdentifier id))
  let trip := resolveImportsLoop tsResolve nodeResolve filePath imports cache []
  ({ imports := trip.1
     usedIdentifiers := used
     missingIdentifiers := missing
     resolvedModules := trip.2.1 }, trip.2.2)

/-! Import suggestion (`DependencyResolver.suggestImportsForIdentifiers` and
`extractExportsFromFile`). -/

/-- `DependencyResolver.extractExportsFromFile` on the parsed tree of a
project file: walk in pre-order; named export clauses record each exported
name as `named`; a statement with an `export` modifier records its
function/class/variable names as `named`; otherwise a statement with a
`default` modifier records its function/class name as `default`.  Later
records override earlier ones (`Map.set`). -/
def extractExportsWalk : Node → List (String × String) → List (String × String)
  | .exportNamedDecl names, acc =>
      names.foldl (fun m n => mapSet m n "named") acc
  | .modDecl he hd inner, acc =>
      let acc' :=
        if he then
          match inner with
          | .funDecl (some n) _ => mapSet acc n "named"
          | .classDecl (some n) _ => mapSet acc n "named"
          | .varDecl (.ident n) _ => mapSet acc n "named"
          | _ => acc
        else if hd then
          match inner with
          | .funDecl (some n) _ => mapSet acc n "default"
          | .classDecl (some n) _ => mapSet acc n "default"
          | _ => acc
        else acc
      extractExportsWalk inner acc'
  | .propertyAccess o p, acc => extractExportsWalk p (extractExportsWalk o acc)
  | .callExpr f a, acc => extractExportsWalk a (extractExportsWalk f acc)
  | .varDecl n i, acc => extractExportsWalk i (extractExportsWalk n acc)
  | .funDecl _ b, acc => extractExportsWalk b acc
  | .classDecl _ b, acc => extractExportsWalk b acc
  | .seqNode a b, acc => extractExportsWalk b (extractExportsWalk a acc)
  | _, acc => acc

/-- Exports of one project file: name to `named` / `default`. -/
def extractExportsFromFile (ast : Node) : List (String × String) :=
  extractExportsWalk ast []

/-- The fixed npm-package lookup table of
`DependencyResolver.getCommonPackagesForIdentifier`
(module name, is-default-import). -/
def getCommonPackagesForIdentifier (identifier : String) :
    List (String × Bool) :=
  if identifier = "React" then [("react", true)]
  else if identifier = "useState" then [("react", false)]
  else if identifier = "useEffect" then [("react", false)]
  else if identifier = "useContext" then [("react", false)]
  else if identifier = "useMemo" then [("react", false)]
  else if identifier = "useCallback" then [("react", false)]
  else if identifier = "useRef" then [("react", false)]
  else if identifier = "styled" then [("styled-components", true)]
  else if identifier = "css" then [("@emotion/react", false)]
  else if identifier = "clsx" then [("clsx", true)]
  else if identifier = "classNames" then [("classnames", true)]
  else if identifier = "axios" then [("axios", true)]
  else if identifier = "_" then [("lodash", true)]
  else if identifier = "moment" then [("moment", true)]
  else if identifier = "dayjs" then [("dayjs", true)]
  else []

/-- One project corpus file, supplied with its externally parsed tree. -/
structure ProjFile where
  path : String
  ast : Node

/-- `DependencyResolver.suggestImportsForIdentifiers`: for each missing
identifier, project files exporting that name yield relative imports, then
the npm table yields package imports; identifiers with no candidates are
omitted.  `relPath` models `path.relative(projectRoot, filePath)` of the
external path library. -/
def suggestImportsForIdentifiers (relPath : String → String)
    (missing : List String) (projectFiles : List ProjFile) :
    List (String × List ImportInfo) :=
  missing.foldl
    (fun acc identifier =>
      let fromProject : List ImportInfo := projectFiles.filterMap
        (fun f =>
          match lookupA (extractExportsFromFile f.ast) identifier with
          | some kind =>
              some { module := "./" ++ relPath f.path
                     specifiers := [{ name := identifier
                                      isDefault := kind = "default" }]
                     isRelative := true
                     resolvedPath := some f.path }
          | none => none)
      let fromPackages : List ImportInfo :=
        (getCommonPackagesForIdentifier identifier).map
          (fun p => { module := p.1
                      specifiers := [{ name := identifier, isDefault := p.2 }]
                      isRelative := false })
      let possible := fromProject ++ fromPackages
      if possible.isEmpty then acc else acc ++ [(identifier, possible)])
    []

/-! Assembler (`SmartCompiler.generateFullCode`, `generateImportStatement`,
`wrapComponentCode`) and the component-name pattern match. -/

/-- Merge key of `generateFullCode`:
module name, colon, specifier names joined by commas in their stored order. -/
def importKey (imp : ImportInfo) : String :=
  imp.module ++ ":" ++ String.intercalate "," (imp.specifiers.map (·.name))

/-- The import-merging fold of `generateFullCode`: existing, suggested and
additional imports in that order, into an insertion-ordered map; `Map.set`
makes a later import with an existing key replace the stored record. -/
def mergeImportsList (existing suggested additional : List ImportInfo) :
    List (String × ImportInfo) :=
  (existing ++ suggested ++ additional).foldl
    (fun m imp => mapSet m (importKey imp) imp) []

/-- The `hasReact` test of `generateFullCode`: some merged import of module
`react` carries a default specifier named `React`. -/
def hasReactDefault (m : List (String × ImportInfo)) : Bool :=
  m.any (fun p =>
    p.2.module == "react" &&
    p.2.specifiers.any (fun s => s.isDefault && s.name == "React"))

/-- The mandatory base runtime import added when `hasReact` fails. -/
def reactDefaultImport : ImportInfo :=
  { module := "react"
    specifiers := [{ name := "React", isDefault := true }]
    isRelative := false }

/-- `generateFullCode`'s guarantee step: add the React default import under
key `react:React` unless a react default import is already present. -/
def ensureReact (m : List (String × ImportInfo)) :
    List (String × ImportInfo) :=
  if hasReactDefault m then m else mapSet m "react:React" reactDefaultImport

/-- `SmartCompiler.generateImportStatement`: default name first, then the
named specifiers in braces with aliases, or a namespace clause. -/
def generateImportStatement (imp : ImportInfo) : String :=
  let namedImports := imp.specifiers.filter
    (fun s => !s.isDefault && !s.isNamespace)
  let namedClause := String.intercalate ", "
    (namedImports.map (fun s =>
      match s.aliasName with
      | some a => s.name ++ " as " ++ a
      | none => s.name))
  let importClause :=
    match imp.specifiers.find? (fun s => s.isDefault) with
    | some d =>
        if namedImports.isEmpty then d.name
        else d.name ++ ", \x7b " ++ namedClause ++ " \x7d"
    | none =>
        match imp.specifiers.find? (fun s => s.isNamespace) with
        | some ns => "* as " ++ ns.name
        | none =>
            if namedImports.isEmpty then ""
            else "\x7b " ++ namedClause ++ " \x7d"
  "import " ++ importClause ++ " from \x27" ++ imp.module ++ "\x27;"

/-! The component-name detection regex of `wrapComponentCode`:
`(?:export\s+)?(?:default\s+)?(?:function|const|class)\s+(\w+)`,
with JavaScript leftmost-match and backtracking semantics. -/

/-- JS `\s` on the ASCII range. -/
def isJsSpace (c : Char) : Bool :=
  c == ' ' || c == '\t' || c == '\n' || c == '\r' || c == '\x0b' || c == '\x0c'

/-- JS `\w`: ASCII letters, digits and underscore. -/
def isWordChar (c : Char) : Bool :=
  c.isAlphanum || c == '_'

/-- Match a literal, returning the rest of the input. -/
def dropLit : List Char → List Char → Option (List Char)
  | [], cs => some cs
  | l :: ls, c :: cs => if c == l then dropLit ls cs else none
  | _ :: _, [] => none

/-- Match `\s+` greedily (at least one whitespace character). -/
def ws1 : List Char → Option (List Char)
  | c :: rest => if isJsSpace c then some (rest.dropWhile isJsSpace) else none
  | [] => none

/-- Match `\w+` greedily, returning the captured word and the rest. -/
def word1 (cs : List Char) : Option (String × List Char) :=
  let w := cs.takeWhile isWordChar
  if w.isEmpty then none else some (String.mk w, cs.dropWhile isWordChar)

/-- Match a literal keyword followed by `\s+`. -/
def litWs (lit : String) (cs : List Char) : Option (List Char) := do
  let r ← dropLit lit.data cs
  ws1 r

/-- Match `(?:function|const|class)\s+(\w+)` at the current position. -/
def kwName (cs : List Char) : Option String :=
  ["function", "const", "class"].findSome? (fun kw => do
    let r ← litWs kw cs
    let (w, _) ← word1 r
    pure w)

/-- Match `(?:default\s+)?(?:function|const|class)\s+(\w+)`, trying the
optional group first as the JS engine does. -/
def afterExportOpt (cs : List Char) : Option String :=
  match litWs "default" cs with
  | some r => kwName r <|> kwName cs
  | none => kwName cs

/-- Match the whole component-name regex at the current position. -/
def wrapMatchAt (cs : List Char) : Option String :=
  match litWs "export" cs with
  | some r => afterExportOpt r <|> afterExportOpt cs
  | none => afterExportOpt cs

/-- Leftmost match of the component-name regex. -/
def wrapScan : List Char → Option String
  | [] => none
  | c :: cs => wrapMatchAt (c :: cs) <|> wrapScan cs

/-- The component-name detection of `wrapComponentCode`
(`code.match(...)` and the capture group). -/
def detectComponentName (code : String) : Option String :=
  wrapScan code.data

/-- The already-exported test of `wrapComponentCode`: literal substring
search for `export default` or `export \x7b`. -/
def hasExportSyntax (code : String) : Bool :=
  jsIncludes code "export default" || jsIncludes code "export \x7b"

/-- The component invocation inside the auto-generated preview wrapper:
the detected name spread with the mock props. -/
def componentInvocation (name : String) : String :=
  "<" ++ name ++ " \x7b...mockProps\x7d />"

/-- The auto-generated preview wrapper up to (excluding) the component
invocation: the fragment body, the wrapper comment and the mock-prop
binding. -/
def wrapHead (code propsJson : String) : String :=
  "\n" ++ code ++
    "\n\n// Auto-generated preview wrapper\nexport default function PreviewWrapper() \x7b\n  const mockProps = " ++
    propsJson ++ ";\n  \n  try \x7b\n    return "

/-- The auto-generated preview wrapper after the component invocation: the
catch block rendering a visible error box. -/
def wrapTailStr : String :=
  ";\n  \x7d catch (error) \x7b\n    return (\n      <div style=\x7b\x7b \n        color: \x27red\x27, \n        padding: \x2720px\x27, \n        border: \x271px solid red\x27,\n        borderRadius: \x274px\x27,\n        backgroundColor: \x27#ffebee\x27\n      \x7d\x7d>\n        <h3>Component Error</h3>\n        <pre>\x7berror.message\x7d</pre>\n      </div>\n    );\n  \x7d\n\x7d\n"

/-- `SmartCompiler.wrapComponentCode`: detect a component name, pass code
through when it already contains export syntax, otherwise append the
auto-generated preview wrapper rendering the detected component (or the
fallback name `Component`) with the mock props.  `mockProps` is the already
JSON-rendered mock-prop object (`JSON.stringify` is external); `none` means
no mock props were supplied, rendered as an empty object. -/
def wrapComponentCode (code : String) (mockProps : Option String) : String :=
  let componentName := (detectComponentName code).getD "Component"
  if hasExportSyntax code then code
  else
    let propsJson := mockProps.getD "\x7b\x7d"
    wrapHead code propsJson ++ componentInvocation componentName ++ wrapTailStr

/-- Options of `generateFullCode` (the object literal `compile` builds). -/
structure GenOptions where
  code : String
  existingImports : List ImportInfo
  suggestedImports : List ImportInfo
  additionalImports : List ImportInfo
  mockProps : Option String := none
  wrapComponent : Option Bool := none

/-- The merged import map of `generateFullCode`, React guarantee included. -/
def mergedImports (o : GenOptions) : List (String × ImportInfo) :=
  ensureReact
    (mergeImportsList o.existingImports o.suggestedImports o.additionalImports)

/-- `SmartCompiler.generateFullCode`: merged import statements, blank line,
fragment body (wrapped unless `wrapComponent` is explicitly `false`). -/
def generateFullCode (o : GenOptions) : String :=
  let importStatements := String.intercalate "\n"
    ((mergedImports o).map (fun p => generateImportStatement p.2))
  let componentCode :=
    if o.wrapComponent = some false then o.code
    else wrapComponentCode o.code o.mockProps
  "\n" ++ importStatements ++ "\n\n" ++ componentCode ++ "\n"

/-! Compiler entry point (`SmartCompiler.compile`) and the esbuild resolve
plugin (`SmartCompiler.createResolvePlugin`).  The esbuild invocation is an
external collaborator, modelled as an oracle that either throws or delivers a
build result record. -/

/-- Outcome of assembly plus build (`CompilationResult` of the source). -/
structure CompilationResult where
  success : Bool
  code : Option String := none
  error : Option String := none
  warnings : Option (List String) := none
  deriving Repr, DecidableEq

/-- A non-throwing esbuild result: error texts, warning texts, output file
texts. -/
structure BuildOk where
  errors : List String
  warnings : List String
  outputFiles : List String
  deriving Repr, DecidableEq

/-- Behavior of one `esbuild.build` invocation: a thrown/rejected error or a
result record. -/
inductive BuildOutcome where
  | thrown (msg : String)
  | done (r : BuildOk)
  deriving Repr, DecidableEq

/-- Options of `SmartCompiler.compile`; the fragment is supplied as its text
together with its externally parsed tree. -/
structure SmartCompileOptions where
  codeText : String
  codeAst : Node
  filePath : Option String := none
  mockProps : Option String := none
  additionalImports : List ImportInfo := []
  wrapComponent : Option Bool := none

/-- The suggested-import selection of `compile`: when identifiers are
missing, take the first candidate of each suggestion list. -/
def selectSuggestedImports (relPath : String → String)
    (missing : List String) (projectFiles : List ProjFile) :
    List ImportInfo :=
  if missing.isEmpty then []
  else
    (suggestImportsForIdentifiers relPath missing projectFiles).filterMap
      (fun p => p.2.head?)

/-- The assembled source `compile` hands to esbuild (steps 1 to 3 of
`SmartCompiler.compile`), together with the dependency context and the
updated resolver cache. -/
def compilePrepare (tsResolve nodeResolve : ResolveOracle)
    (relPath : String → String) (projectFiles : List ProjFile)
    (cache : List (String × String)) (o : SmartCompileOptions) :
    String × DependencyContext × List (String × String) :=
  let ana := analyzeDependencies tsResolve nodeResolve cache o.codeAst o.filePath
  let suggested :=
    selectSuggestedImports relPath ana.1.missingIdentifiers projectFiles
  let fullCode := generateFullCode
    { code := o.codeText
      existingImports := ana.1.imports
      suggestedImports := suggested
      additionalImports := o.additionalImports
      mockProps := o.mockProps
      wrapComponent := o.wrapComponent }
  (fullCode, ana.1, ana.2)

/-- `SmartCompiler.compile`: analyze, suggest, assemble, build; esbuild
errors and thrown exceptions become `success := false` results with an error
message; on success the first output file's text is returned (an absent
output file makes the subscript access throw, which the same catch turns
into a failure result). -/
def compile (tsResolve nodeResolve : ResolveOracle)
    (relPath : String → String) (build : String → BuildOutcome)
    (projectFiles : List ProjFile) (cache : List (String × String))
    (o : SmartCompileOptions) :
    CompilationResult × List (String × String) :=
  let prep := compilePrepare tsResolve nodeResolve relPath projectFiles cache o
  let cache' := prep.2.2
  match build prep.1 with
  | .thrown msg => ({ success := false, error := some msg }, cache')
  | .done r =>
      if !r.errors.isEmpty then
        ({ success := false
           error := some (String.intercalate "\n" r.errors) }, cache')
      else
        match r.outputFiles with
        | [] =>
            ({ success := false
               error := some "Cannot read properties of undefined (reading \x27text\x27)" },
             cache')
        | t :: _ =>
            ({ success := true, code := some t, warnings := some r.warnings },
             cache')

/-- Result of the resolve plugin's `onResolve` callback: a resolved path, an
external marker, or a pass-through (`null`). -/
inductive PluginResolution where
  | resolvedTo (p : String)
  | externalDep
  | passthrough
  deriving Repr, DecidableEq

/-- The `onResolve` callback installed by
`SmartCompiler.createResolvePlugin`: already-resolved modules map to their
path; bare specifiers fall back to node resolution and degrade to an
external marker when that fails; relative and absolute paths pass through. -/
def pluginOnResolve (resolvedModules : List (String × String))
    (nodeResolve : String → String → Option String)
    (argsPath resolveDir : String) : PluginResolution :=
  match lookupA resolvedModules argsPath with
  | some p => .resolvedTo p
  | none =>
      if !(jsStartsWith argsPath ".") && !(jsStartsWith argsPath "/") then
        match nodeResolve argsPath resolveDir with
        | some p => .resolvedTo p
        | none => .externalDep
      else
        .passthrough

/-! Snippet compiler (`JSXCompiler.ts`): regex-based project-export
extraction, context merging, and `compileJSXSnippet`. -/

/-- JS `String.prototype.trim` on the ASCII whitespace range. -/
def jsTrim (s : String) : String :=
  String.mk (((s.data.dropWhile isJsSpace).reverse.dropWhile isJsSpace).reverse)

/-- Left brace and right brace characters. -/
def lbrace : Char := Char.ofNat 123

/-- Right brace character. -/
def rbrace : Char := Char.ofNat 125

/-- One step of the global regex
`export\s+(?:const|let|var|function|class|interface|type)\s+(\w+)`:
the captured name and the rest of the input after the match. -/
def exportDeclAt (cs : List Char) : Option (String × List Char) := do
  let r ← litWs "export" cs
  ["const", "let", "var", "function", "class", "interface", "type"].findSome?
    (fun kw => do
      let r2 ← litWs kw r
      word1 r2)

/-- One step of the global regex
`export\s+default\s+(?:function\s+)?(\w+)`; when the optional `function`
group matches but no word follows, the engine backtracks and captures
`function` itself. -/
def defaultExportAt (cs : List Char) : Option (String × List Char) := do
  let r ← litWs "export" cs
  let r ← dropLit "default".data r
  let r ← ws1 r
  match litWs "function" r with
  | some r2 => word1 r2 <|> word1 r
  | none => word1 r

/-- One step of the global regex `export\s*\x7b\s*([^\x7d]+)\s*\x7d`: the
capture between the braces and the rest after the closing brace.  When only
whitespace separates the braces the greedy `\s*` backtracks by one character
so the capture is the last whitespace character. -/
def namedExportAt (cs : List Char) : Option (String × List Char) := do
  let r ← dropLit "export".data cs
  let r := r.dropWhile isJsSpace
  let r ← (match r with
           | c :: rest => if c == lbrace then some rest else none
           | [] => none)
  let sp := r.takeWhile isJsSpace
  let r2 := r.dropWhile isJsSpace
  let body := r2.takeWhile (fun c => !(c == rbrace))
  if body.isEmpty then
    match sp.getLast?, r2 with
    | some c, h :: rest =>
        if h == rbrace then some (String.mk [c], rest) else none
    | _, _ => none
  else
    match r2.drop body.length with
    | h :: rest => if h == rbrace then some (String.mk body, rest) else none
    | [] => none

/-- Repeatedly apply a global regex step from left to right, advancing past
each match (the `lastIndex` loop of `RegExp.exec`); the fuel is the input
length, enough because every step consumes at least one character. -/
def scanAll (matchAt : List Char → Option (String × List Char)) :
    Nat → List Char → List String
  | 0, _ => []
  | _ + 1, [] => []
  | fuel + 1, c :: cs =>
      match matchAt (c :: cs) with
      | some (w, rest) => w :: scanAll matchAt fuel rest
      | none => scanAll matchAt fuel cs

/-- Prefix of a character list before the first `\s+as\s+` occurrence
(JS `split(/\s+as\s+/)[0]`). -/
def takeBeforeAs : List Char → List Char
  | [] => []
  | c :: rest =>
      let asHere :=
        match ws1 (c :: rest) with
        | some r => (match dropLit "as".data r with
                     | some r2 => (ws1 r2).isSome
                     | none => false)
        | none => false
      if asHere then [] else c :: takeBeforeAs rest

/-- Process one named-export capture:
split at commas, trim, drop `as` aliases, trim, discard empties. -/
def namedExportNames (cap : String) : List String :=
  ((cap.splitOn ",").map
    (fun e => jsTrim (String.mk (takeBeforeAs (jsTrim e).data)))).filter
    (fun e => e ≠ "")

/-- `JSXCompiler.extractExportsFromContent`: the two declaration regexes in
order, then the named-export clause regex, deduplicated preserving first
occurrence (`[...new Set(exports)]`). -/
def extractExportsFromContent (content : String) : List String :=
  let cs := content.data
  let p1 := scanAll exportDeclAt cs.length cs
  let p2 := scanAll defaultExportAt cs.length cs
  let named := (scanAll namedExportAt cs.length cs).flatMap namedExportNames
  setFromList (p1 ++ p2 ++ named)

/-- One project file of the snippet compiler's `CodeContext` (`type` of the
source is spelled `fileType`). -/
structure CtxFile where
  path : String
  fileType : String
  content : String

/-- The snippet compiler's `CodeContext`: project files plus the flat
dependency table. -/
structure CodeContext where
  projectFiles : List CtxFile
  dependencies : List (String × String)

/-- A JSX snippet (`JSXSnippet` of the source, the fields the compiler
reads). -/
structure JSXSnippet where
  code : String
  fileName : Option String := none
  dependencies : Option (List String) := none

/-- `JSXCompiler.sanitizeImportName`: non-identifier characters become
underscores. -/
def sanitizeImportName (name : String) : String :=
  String.mk (name.data.map
    (fun c => if c.isAlphanum || c == '_' || c == '$' then c else '_'))

/-- `JSXCompiler.convertToImportPath`: strip a script extension and prefix
`./`. -/
def convertToImportPath (filePath : String) : String :=
  let stripped :=
    if filePath.endsWith ".tsx" then filePath.dropRight 4
    else if filePath.endsWith ".ts" then filePath.dropRight 3
    else if filePath.endsWith ".jsx" then filePath.dropRight 4
    else if filePath.endsWith ".js" then filePath.dropRight 3
    else filePath
  "./" ++ stripped

/-- `JSXCompiler.generateImportForDependency` filtered by `Boolean`: a
namespace import when the dependency table knows the package. -/
def generateImportForDependency (ctx : CodeContext) (dep : String) :
    Option String :=
  if (lookupA ctx.dependencies dep).isSome then
    some ("import * as " ++ sanitizeImportName dep ++ " from \x27" ++ dep ++ "\x27;")
  else none

/-- `JSXCompiler.extractProjectExports`: path to regex-extracted export
names, script files only, files without exports omitted. -/
def extractProjectExports (ctx : CodeContext) : List (String × List String) :=
  ctx.projectFiles.foldl
    (fun acc f =>
      if ["tsx", "ts", "jsx", "js"].contains f.fileType then
        let ex := extractExportsFromContent f.content
        if ex.isEmpty then acc else mapSet acc f.path ex
      else acc)
    []

/-- `JSXCompiler.generateProjectImports`: one named-import statement per
project file with exports. -/
def generateProjectImports (ctx : CodeContext) : List String :=
  (extractProjectExports ctx).map
    (fun p =>
      "import \x7b " ++ String.intercalate ", " p.2 ++ " \x7d from \x27" ++
        convertToImportPath p.1 ++ "\x27;")

/-- `JSXCompiler.generateImports`: the two fixed runtime imports, the known
snippet dependencies, the project imports. -/
def generateImports (ctx : CodeContext) (snippet : JSXSnippet) : String :=
  let defaultImports :=
    ["import React from \x27react\x27;", "import ReactDOM from \x27react-dom\x27;"]
  let customImports :=
    (snippet.dependencies.getD []).filterMap (generateImportForDependency ctx)
  String.intercalate "\n"
    (defaultImports ++ customImports ++ generateProjectImports ctx)

/-- `JSXCompiler.generateContextCode`: every script file's content, prefixed
with a file-path comment. -/
def generateContextCode (ctx : CodeContext) : String :=
  let contextFiles := String.intercalate "\n\n"
    ((ctx.projectFiles.filter
        (fun f => ["tsx", "ts", "jsx", "js"].contains f.fileType)).map
      (fun f => "// File: " ++ f.path ++ "\n" ++ f.content))
  "\n// Project Context Code\n" ++ contextFiles ++ "\n"

/-- `JSXCompiler.mergeSnippetWithContext`. -/
def mergeSnippetWithContext (ctx : CodeContext) (snippet : JSXSnippet) :
    String :=
  "\n" ++ generateImports ctx snippet ++ "\n" ++ generateContextCode ctx ++
    "\n\n// User JSX Snippet\n" ++ snippet.code ++ "\n"

/-- Behavior of the snippet compiler's `esbuild.build` call: thrown error, or
a result whose `warnings` and `outputFiles` fields may each be absent (the
source reads them with optional chaining). -/
inductive JsxBuildOutcome where
  | thrown (msg : String)
  | done (warnings : Option (List String)) (outputFiles : Option (List String))
  deriving Repr, DecidableEq

/-- `JSXCompiler.compileJSXSnippet`: merge with context, build, wrap the
outcome; a thrown build error is caught into a failure result, otherwise the
first output file's text (optional chaining) becomes the code. -/
def compileJSXSnippet (buildJSX : String → JsxBuildOutcome)
    (ctx : CodeContext) (snippet : JSXSnippet) : CompilationResult :=
  match buildJSX (mergeSnippetWithContext ctx snippet) with
  | .thrown msg => { success := false, error := some msg }
  | .done warnings outputFiles =>
      { success := true
        code := outputFiles.bind List.head?
        warnings := warnings }

/-! Concrete instances used by the counterexamples and witnesses below. -/

/-- A resolution oracle that always fails (no tsconfig resolution, failing
`require.resolve`). -/
def noResolve : ResolveOracle := fun _ _ => none

/-- The fragment of spec example 2:
an existing named import binding `useState` and a default-exported component
whose body uses `useState`. -/
def fragmentC2text : String :=
  "import \x7b useState \x7d from \x27state-lib\x27;\nexport default function Counter() \x7b return useState(); \x7d"

/-- The parsed tree of `fragmentC2text`. -/
def fragmentC2ast : Node :=
  .seqNode (.importDecl "state-lib" [{ kind := .named, localName := "useState" }])
    (.modDecl true true
      (.funDecl (some "Counter") (.callExpr (.ident "useState") .emptyNode)))

/-- An import of `b` and `a` (that order) from module `m`. -/
def importBA : ImportInfo :=
  { module := "m", specifiers := [{ name := "b" }, { name := "a" }],
    isRelative := false }

/-- An import of `a` and `b` (that order) from module `m`. -/
def importAB : ImportInfo :=
  { module := "m", specifiers := [{ name := "a" }, { name := "b" }],
    isRelative := false }

/-- The suggested import the npm table produces for `useState`. -/
def reactUseStateImport : ImportInfo :=
  { module := "react"
    specifiers := [{ name := "useState", isDefault := false }]
    isRelative := false }

/-- A fragment with an export that is neither `export default` nor
`export \x7b`. -/
def fragmentC4 : String := "export const Foo = () => 1"

/-- A build oracle that always succeeds with one output file. -/
def buildAlwaysOk : String → BuildOutcome :=
  fun _ => .done { errors := [], warnings := [], outputFiles := ["out"] }

/-- A snippet-build oracle that always succeeds with one output file. -/
def buildJsxAlwaysOk : String → JsxBuildOutcome :=
  fun _ => .done none (some ["out"])

/-- Minimal compile options over a one-identifier fragment. -/
def optsX : SmartCompileOptions := { codeText := "x", codeAst := .ident "x" }

/-- An empty snippet-compiler context. -/
def ctxEmpty : CodeContext := { projectFiles := [], dependencies := [] }

/-- A minimal snippet. -/
def snippetY : JSXSnippet := { code := "y" }

/-- An unexported component fragment with detectable name `Foo`. -/
def fragmentC9 : String := "function Foo() \x7b return 1; \x7d"

/-- Assembly options for `fragmentC9` with no imports at all. -/
def genC9 : GenOptions :=
  { code := fragmentC9, existingImports := [], suggestedImports := [],
    additionalImports := [] }

/-! Helper lemmas on the JS-style containers. -/

theorem mem_setAdd {l : List String} {y x : String} :
    x ∈ setAdd l y ↔ x ∈ l ∨ x = y := by
  unfold setAdd
  split
  · next h =>
      constructor
      · exact Or.inl
      · rintro (hx | rfl)
        · exact hx
        · exact List.elem_iff.mp h
  · simp [or_comm]

theorem mem_foldl_setAdd (l : List String) (acc : List String) (x : String) :
    x ∈ l.foldl setAdd acc ↔ x ∈ acc ∨ x ∈ l := by
  induction l generalizing acc with
  | nil => simp
  | cons a as ih => simp [List.foldl_cons, ih, mem_setAdd]; tauto

theorem mem_setFromList {l : List String} {x : String} :
    x ∈ setFromList l ↔ x ∈ l := by
  simp [setFromList, mem_foldl_setAdd]

theorem contains_eq_false_iff {l : List String} {x : String} :
    l.contains x = false ↔ x ∉ l := by
  constructor
  · intro h hx
    exact absurd (List.elem_iff.mpr hx) (by simp [List.contains] at h; simp [h])
  · intro h
    by_contra hc
    exact h (List.elem_iff.mp (by simpa [List.contains] using hc))

/-! Lemmas relating the analyzer's outputs to the tree walks. -/

theorem analyze_missing_eq (tsR nodeR : ResolveOracle)
    (cache : List (String × String)) (ast : Node) (fp : Option String) :
    ((analyzeDependencies tsR nodeR cache ast fp).1).missingIdentifiers =
      (setFromList (usedIdents ast false)).filter
        (fun id => !((setFromList (declaredIdents ast)).contains id) &&
          !(isBuiltinIdentifier id)) := rfl

theorem analyze_used_eq (tsR nodeR : ResolveOracle)
    (cache : List (String × String)) (ast : Node) (fp : Option String) :
    ((analyzeDependencies tsR nodeR cache ast fp).1).usedIdentifiers =
      setFromList (usedIdents ast false) := rfl

/-- C1: the missing-identifier set is exactly used minus locally declared
minus the fixed builtin set; hence a subset of used and disjoint from the
builtins. -/
theorem C1_missing_eq_used_minus_declared_minus_builtins
    (tsR nodeR : ResolveOracle) (cache : List (String × String))
    (ast : Node) (fp : Option String) :
    ((analyzeDependencies tsR nodeR cache ast fp).1).missingIdentifiers.toFinset =
        (((analyzeDependencies tsR nodeR cache ast fp).1).usedIdentifiers.toFinset
          \ (declaredIdents ast).toFinset) \ builtinsList.toFinset
      ∧ ((analyzeDependencies tsR nodeR cache ast fp).1).missingIdentifiers.toFinset
          ⊆ ((analyzeDependencies tsR nodeR cache ast fp).1).usedIdentifiers.toFinset
      ∧ Disjoint
          ((analyzeDependencies tsR nodeR cache ast fp).1).missingIdentifiers.toFinset
          builtinsList.toFinset := by
  have hmain :
      ((analyzeDependencies tsR nodeR cache ast fp).1).missingIdentifiers.toFinset =
        (((analyzeDependencies tsR nodeR cache ast fp).1).usedIdentifiers.toFinset
          \ (declaredIdents ast).toFinset) \ builtinsList.toFinset := by
    ext x
    simp only [analyze_missing_eq, analyze_used_eq, List.mem_toFinset,
      Finset.mem_sdiff, List.mem_filter, mem_setFromList, Bool.and_eq_true,
      Bool.not_eq_true', contains_eq_false_iff, isBuiltinIdentifier]
    tauto
  refine ⟨hmain, ?_, ?_⟩
  · rw [hmain]
    exact Finset.sdiff_subset.trans Finset.sdiff_subset
  · rw [hmain]
    exact Finset.sdiff_disjoint

/-- Relation between the used-identifier walk and the full identifier
occurrence list: used identifiers are exactly the occurrences whose parent is
not a property access. -/
theorem usedIdents_eq_filter_occurrences (n : Node) (pa : Bool) :
    usedIdents n pa =
      ((identOccurrences n pa).filter (fun p => !p.2)).map Prod.fst := by
  induction n generalizing pa with
  | ident name => cases pa <;> simp [usedIdents, identOccurrences]
  | propertyAccess o p iho ihp =>
      simp [usedIdents, identOccurrences, iho, ihp]
  | callExpr f a ihf iha => simp [usedIdents, identOccurrences, ihf, iha]
  | varDecl nm i ihn ihi => simp [usedIdents, identOccurrences, ihn, ihi]
  | funDecl nm b ihb =>
      simp [usedIdents, identOccurrences, ihb, List.filter_map,
        Function.comp_def, List.map_map]
  | classDecl nm b ihb =>
      simp [usedIdents, identOccurrences, ihb, List.filter_map,
        Function.comp_def, List.map_map]
  | importDecl m clause =>
      simp [usedIdents, identOccurrences, List.filter_map,
        Function.comp_def, List.map_map]
  | exportNamedDecl names =>
      simp [usedIdents, identOccurrences, List.filter_map,
        Function.comp_def, List.map_map]
  | modDecl he hd inner ih => simp [usedIdents, identOccurrences, ih]
  | seqNode a b iha ihb => simp [usedIdents, identOccurrences, iha, ihb]
  | emptyNode => simp [usedIdents, identOccurrences]
  | strLit s => simp [usedIdents, identOccurrences]

/-- C6 counterexample: for the member expression `a.b` the object identifier
`a` is NOT in `usedIdentifiers` (the walk excludes every identifier whose
parent is the property access, the object as well as the property name). -/
theorem C6_counterexample_object_excluded :
    "a" ∉ ((analyzeDependencies noResolve noResolve []
      (.propertyAccess (.ident "a") (.ident "b")) none).1).usedIdentifiers := by
  decide

/-- C6 amended: `usedIdentifiers` contains exactly the identifier references
whose parent is not a member expression; both children of `a.b` (the object
`a` and the property name `b`) are excluded. -/
theorem C6_used_excludes_member_expression_children
    (tsR nodeR : ResolveOracle) (cache : List (String × String))
    (ast : Node) (fp : Option String) :
    (∀ x, x ∈ ((analyzeDependencies tsR nodeR cache ast fp).1).usedIdentifiers
        ↔ (x, false) ∈ identOccurrences ast false)
    ∧ (∀ a b, usedIdents (.propertyAccess (.ident a) (.ident b)) false = []) := by
  constructor
  · intro x
    rw [analyze_used_eq, mem_setFromList, usedIdents_eq_filter_occurrences]
    simp only [List.mem_map, List.mem_filter]
    constructor
    · rintro ⟨⟨y, c⟩, ⟨hmem, hc⟩, rfl⟩
      cases c
      · exact hmem
      · simp at hc
    · intro h
      exact ⟨(x, false), ⟨h, rfl⟩, rfl⟩
  · intro a b
    simp [usedIdents]

/-- C6 amended witness: concrete instance of the characterization at the
fragment `a.b; c`. -/
theorem C6_used_excludes_member_expression_children_witness :
    ("c" ∈ ((analyzeDependencies noResolve noResolve []
        (.seqNode (.propertyAccess (.ident "a") (.ident "b")) (.ident "c"))
        none).1).usedIdentifiers
      ↔ ("c", false) ∈ identOccurrences
        (.seqNode (.propertyAccess (.ident "a") (.ident "b")) (.ident "c"))
        false)
    ∧ usedIdents (.propertyAccess (.ident "x") (.ident "y")) false = [] :=
  ⟨(C6_used_excludes_member_expression_children noResolve noResolve []
      (.seqNode (.propertyAccess (.ident "a") (.ident "b")) (.ident "c"))
      none).1 "c",
   (C6_used_excludes_member_expression_children noResolve noResolve []
      (.seqNode (.propertyAccess (.ident "a") (.ident "b")) (.ident "c"))
      none).2 "x" "y"⟩

/-- C2 counterexample: on the example-2 fragment (existing import binding
`useState`, default-exported component), `missingIdentifiers` is NOT
empty: bound names of imports are never added to the declared set, so
`useState` is reported missing. -/
theorem C2_counterexample_missing_not_empty :
    "useState" ∈ ((analyzeDependencies noResolve noResolve []
      fragmentC2ast none).1).missingIdentifiers := by
  decide

/-- C2 amended: on the example-2 fragment, analysis reports
`missingIdentifiers = [useState]` (import bindings are not subtracted), an
extra `useState` import is suggested from the npm table, the fragment is
still passed through without a wrapper (it has `export default`), and the
assembled output has three imports: the fragment's own import, the suggested
one, and the mandatory React default import. -/
theorem C2_amended_imported_fragment_behavior :
    ((analyzeDependencies noResolve noResolve []
        fragmentC2ast none).1).missingIdentifiers = ["useState"]
    ∧ selectSuggestedImports id ["useState"] [] = [reactUseStateImport]
    ∧ wrapComponentCode fragmentC2text none = fragmentC2text
    ∧ (mergedImports
        { code := fragmentC2text
          existingImports :=
            ((analyzeDependencies noResolve noResolve []
              fragmentC2ast none).1).imports
          suggestedImports := selectSuggestedImports id ["useState"] []
          additionalImports := [] }).map Prod.fst =
        ["state-lib:useState", "react:useState", "react:React"] := by
  refine ⟨by decide, by decide, by decide, by decide⟩

/-! Generic lemmas about the JS `Map` model (`mapSet`, `lookupA`). -/

theorem any_key_iff {α : Type} {m : List (String × α)} {k : String} :
    m.any (fun p => p.1 = k) = true ↔ k ∈ keysOf m := by
  simp [keysOf, List.any_eq_true, List.mem_map]

theorem keysOf_mapSet_of_key_mem {α : Type} {m : List (String × α)}
    {k : String} (v : α) (h : k ∈ keysOf m) :
    keysOf (mapSet m k v) = keysOf m := by
  unfold mapSet
  rw [if_pos (any_key_iff.mpr h)]
  unfold keysOf
  rw [List.map_map]
  apply List.map_congr_left
  intro p hp
  by_cases hk : p.1 = k
  · simp [hk]
  · simp [hk]

theorem keysOf_mapSet_of_key_not_mem {α : Type} {m : List (String × α)}
    {k : String} (v : α) (h : k ∉ keysOf m) :
    keysOf (mapSet m k v) = keysOf m ++ [k] := by
  unfold mapSet
  rw [if_neg (fun hc => h (any_key_iff.mp hc))]
  simp [keysOf]

theorem mem_keysOf_mapSet {α : Type} {m : List (String × α)}
    {k k' : String} (v : α) (h : k' ∈ keysOf m) :
    k' ∈ keysOf (mapSet m k v) := by
  by_cases hk : k ∈ keysOf m
  · rw [keysOf_mapSet_of_key_mem v hk]; exact h
  · rw [keysOf_mapSet_of_key_not_mem v hk]; exact List.mem_append_left _ h

theorem key_mem_keysOf_mapSet {α : Type} (m : List (String × α))
    (k : String) (v : α) : k ∈ keysOf (mapSet m k v) := by
  by_cases hk : k ∈ keysOf m
  · rw [keysOf_mapSet_of_key_mem v hk]; exact hk
  · rw [keysOf_mapSet_of_key_not_mem v hk]
    exact List.mem_append_right _ (List.mem_singleton.mpr rfl)

theorem self_mem_mapSet {α : Type} (m : List (String × α))
    (k : String) (v : α) : (k, v) ∈ mapSet m k v := by
  unfold mapSet
  split
  · next h =>
      simp only [List.any_eq_true, decide_eq_true_eq] at h
      obtain ⟨p, hp, hk⟩ := h
      exact List.mem_map.mpr ⟨p, hp, by simp [hk]⟩
  · exact List.mem_append_right _ (List.mem_singleton.mpr rfl)

theorem keysOf_nodup_mapSet {α : Type} {m : List (String × α)}
    (k : String) (v : α) (h : (keysOf m).Nodup) :
    (keysOf (mapSet m k v)).Nodup := by
  by_cases hk : k ∈ keysOf m
  · rw [keysOf_mapSet_of_key_mem v hk]; exact h
  · rw [keysOf_mapSet_of_key_not_mem v hk]
    simp [List.nodup_append, h, hk]

theorem lookupA_mem_keysOf {α : Type} {m : List (String × α)}
    {k : String} {v : α} (h : lookupA m k = some v) : k ∈ keysOf m := by
  induction m with
  | nil => simp [lookupA] at h
  | cons p rest ih =>
      unfold lookupA at h
      by_cases hk : p.1 = k
      · simp [keysOf, hk]
      · rcases p with ⟨k', v'⟩
        simp only at hk
        rw [if_neg hk] at h
        exact List.mem_cons_of_mem _ (ih h)

theorem map_id_of_key_not_mem {α : Type} {m : List (String × α)}
    {k : String} (v : α) (h : k ∉ keysOf m) :
    m.map (fun p => if p.1 = k then (k, v) else p) = m := by
  induction m with
  | nil => rfl
  | cons p rest ih =>
      simp only [keysOf, List.map_cons, List.mem_cons, not_or] at h
      obtain ⟨h1, h2⟩ := h
      simp only [List.map_cons]
      rw [if_neg (fun hc => h1 hc.symm)]
      rw [ih h2]

theorem lookupA_append_right {α : Type} {m l : List (String × α)} {k : String}
    (h : k ∉ keysOf m) : lookupA (m ++ l) k = lookupA l k := by
  induction m with
  | nil => rfl
  | cons p rest ih =>
      rcases p with ⟨k', v'⟩
      simp only [keysOf, List.map_cons, List.mem_cons, not_or] at h
      obtain ⟨h1, h2⟩ := h
      have hk : ¬(k' = k) := fun hc => h1 hc.symm
      simp only [List.cons_append, lookupA, if_neg hk]
      exact ih h2

theorem lookupA_mapf_of_mem {α : Type} {m : List (String × α)} {k : String}
    (v : α) (h : k ∈ keysOf m) :
    lookupA (m.map (fun p => if p.1 = k then (k, v) else p)) k = some v := by
  induction m with
  | nil => simp [keysOf] at h
  | cons p rest ih =>
      rcases p with ⟨k', v'⟩
      by_cases hk : k' = k
      · subst hk
        rw [List.map_cons]
        rw [show (if (k', v').1 = k' then (k', v) else (k', v')) = (k', v)
              from by simp]
        simp [lookupA]
      · have h' : k ∈ keysOf rest := by
          simp only [keysOf, List.map_cons, List.mem_cons] at h
          rcases h with h | h
          · exact absurd h.symm hk
          · exact h
        rw [List.map_cons]
        rw [show (if (k', v').1 = k then (k, v) else (k', v')) = (k', v')
              from by simp [hk]]
        simp [lookupA, hk, ih h']

theorem lookupA_mapSet_self {α : Type} (m : List (String × α))
    (k : String) (v : α) : lookupA (mapSet m k v) k = some v := by
  unfold mapSet
  by_cases h : k ∈ keysOf m
  · rw [if_pos (any_key_iff.mpr h)]
    exact lookupA_mapf_of_mem v h
  · rw [if_neg (fun hc => h (any_key_iff.mp hc))]
    rw [lookupA_append_right h]
    simp [lookupA]

theorem mapf_eq_self_of_lookup {α : Type} {m : List (String × α)}
    {k : String} {v : α} (hn : (keysOf m).Nodup)
    (hl : lookupA m k = some v) :
    m.map (fun p => if p.1 = k then (k, v) else p) = m := by
  induction m with
  | nil => rfl
  | cons p rest ih =>
      rcases p with ⟨k', v'⟩
      simp only [keysOf, List.map_cons, List.nodup_cons] at hn
      obtain ⟨hkn, hn'⟩ := hn
      by_cases hk : k' = k
      · subst hk
        have hv : v' = v := by simpa [lookupA] using hl
        subst hv
        simp only [List.map_cons, if_pos]
        rw [map_id_of_key_not_mem v' hkn]
      · have hl' : lookupA rest k = some v := by simpa [lookupA, hk] using hl
        simp only [List.map_cons]
        rw [if_neg hk]
        rw [ih hn' hl']

theorem mapSet_eq_self {α : Type} {m : List (String × α)} {k : String}
    {v : α} (hn : (keysOf m).Nodup) (hl : lookupA m k = some v) :
    mapSet m k v = m := by
  unfold mapSet
  rw [if_pos (any_key_iff.mpr (lookupA_mem_keysOf hl))]
  exact mapf_eq_self_of_lookup hn hl

theorem keysOf_nodup_foldl_merge (l : List ImportInfo)
    (m : List (String × ImportInfo)) (h : (keysOf m).Nodup) :
    (keysOf (l.foldl (fun m imp => mapSet m (importKey imp) imp) m)).Nodup := by
  induction l generalizing m with
  | nil => exact h
  | cons imp rest ih =>
      exact ih _ (keysOf_nodup_mapSet _ _ h)

theorem mem_keysOf_foldl_merge {k : String} (l : List ImportInfo)
    (m : List (String × ImportInfo)) (h : k ∈ keysOf m) :
    k ∈ keysOf (l.foldl (fun m imp => mapSet m (importKey imp) imp) m) := by
  induction l generalizing m with
  | nil => exact h
  | cons imp rest ih => exact ih _ (mem_keysOf_mapSet _ h)

theorem importKey_mem_foldl_merge {imp : ImportInfo} {l : List ImportInfo}
    (h : imp ∈ l) (m : List (String × ImportInfo)) :
    importKey imp ∈
      keysOf (l.foldl (fun m imp => mapSet m (importKey imp) imp) m) := by
  induction l generalizing m with
  | nil => cases h
  | cons a rest ih =>
      rcases List.mem_cons.mp h with rfl | h'
      · exact mem_keysOf_foldl_merge rest _ (key_mem_keysOf_mapSet m _ _)
      · exact ih h' _

theorem mergeImportsList_append_singleton (ex sg ad : List ImportInfo)
    (imp : ImportInfo) :
    mergeImportsList ex sg (ad ++ [imp]) =
      mapSet (mergeImportsList ex sg ad) (importKey imp) imp := by
  unfold mergeImportsList
  have h1 : ex ++ sg ++ (ad ++ [imp]) = (ex ++ sg ++ ad) ++ [imp] := by
    simp [List.append_assoc]
  rw [h1, List.foldl_append]
  rfl

/-- C3 counterexample: two imports of module `m` with the same (sorted)
specifier-name set `\x7ba, b\x7d` but different written orders are NOT
deduplicated: the merge keeps both entries, because the key joins the names
in written order rather than sorted order. -/
theorem C3_counterexample_sorted_key_not_deduplicated :
    importBA.module = importAB.module
    ∧ (importBA.specifiers.map (fun s => s.name)).Perm
        (importAB.specifiers.map (fun s => s.name))
    ∧ (mergeImportsList [importBA] [] [importAB]).map Prod.fst
        = ["m:b,a", "m:a,b"] :=
  ⟨rfl, by decide, by decide⟩

/-- C3 amended: merging deduplicates by the key (module, specifier names in
written order); a later source with an existing key replaces the stored
entry (last write wins), and merging an import identical to the stored entry
for its key leaves the merge unchanged, so re-supplying an import among
`additionalImports` does not duplicate it. -/
theorem C3_merge_written_key_last_wins_idempotent :
    (∀ ex sg ad, (keysOf (mergeImportsList ex sg ad)).Nodup)
    ∧ (∀ ex sg ad imp,
        lookupA (mergeImportsList ex sg (ad ++ [imp])) (importKey imp)
          = some imp)
    ∧ (∀ ex sg ad imp,
        lookupA (mergeImportsList ex sg ad) (importKey imp) = some imp →
        mergeImportsList ex sg (ad ++ [imp]) = mergeImportsList ex sg ad) := by
  refine ⟨?_, ?_, ?_⟩
  · intro ex sg ad
    exact keysOf_nodup_foldl_merge _ _ (by simp [keysOf])
  · intro ex sg ad imp
    rw [mergeImportsList_append_singleton]
    exact lookupA_mapSet_self _ _ _
  · intro ex sg ad imp h
    rw [mergeImportsList_append_singleton]
    exact mapSet_eq_self (keysOf_nodup_foldl_merge _ _ (by simp [keysOf])) h

/-- C3 amended witness: re-merging an import already stored under its key
changes nothing, at a concrete instance. -/
theorem C3_merge_witness :
    mergeImportsList [importBA] [] [importBA] = mergeImportsList [importBA] [] []
    ∧ (keysOf (mergeImportsList [importBA] [] [importAB])).Nodup :=
  ⟨C3_merge_written_key_last_wins_idempotent.2.2 [importBA] [] [] importBA
      (by decide),
   C3_merge_written_key_last_wins_idempotent.1 [importBA] [] [importAB]⟩

/-- C4 counterexample: a fragment containing an export that is neither the
literal `export default` nor `export \x7b` (here `export const Foo = ...`) is
NOT passed through unmodified: the preview wrapper is appended. -/
theorem C4_counterexample_export_const_wrapped :
    wrapComponentCode fragmentC4 none ≠ fragmentC4
    ∧ jsIncludes (wrapComponentCode fragmentC4 none)
        "Auto-generated preview wrapper" = true :=
  ⟨by decide, by decide⟩

/-- C4 amended: a fragment containing the literal substring `export default`
or `export \x7b` is passed through unmodified, regardless of mock props.
Other export forms are wrapped. -/
theorem C4_literal_export_check_passthrough (code : String)
    (mock : Option String) (h : hasExportSyntax code = true) :
    wrapComponentCode code mock = code := by
  unfold wrapComponentCode
  simp [h]

/-- C4 amended witness: a fragment with a default export is returned
verbatim, with mock props supplied. -/
theorem C4_literal_export_check_passthrough_witness :
    hasExportSyntax "export default Foo" = true
    ∧ wrapComponentCode "export default Foo" (some "\x7b a: 1 \x7d")
        = "export default Foo" :=
  ⟨by decide,
   C4_literal_export_check_passthrough "export default Foo"
     (some "\x7b a: 1 \x7d") (by decide)⟩

/-- C8: the merged import set of every assembly contains a default import of
`React` from module `react`, whatever the three import sources were. -/
theorem C8_react_default_import_always_present (o : GenOptions) :
    ∃ p ∈ mergedImports o,
      p.2.module = "react"
        ∧ ∃ s ∈ p.2.specifiers, s.isDefault = true ∧ s.name = "React" := by
  unfold mergedImports ensureReact
  by_cases h : hasReactDefault
    (mergeImportsList o.existingImports o.suggestedImports o.additionalImports)
  · rw [if_pos h]
    unfold hasReactDefault at h
    simp only [List.any_eq_true, Bool.and_eq_true, beq_iff_eq] at h
    obtain ⟨p, hp, hmod, s, hs, hdef, hname⟩ := h
    exact ⟨p, hp, hmod, s, hs, hdef, hname⟩
  · rw [if_neg h]
    refine ⟨("react:React", reactDefaultImport), self_mem_mapSet _ _ _, rfl, ?_⟩
    exact ⟨{ name := "React", isDefault := true },
      by simp [reactDefaultImport], rfl, rfl⟩

/-- C8 witness: concrete instance with no import sources at all. -/
theorem C8_react_default_import_always_present_witness :
    ∃ p ∈ mergedImports genC9,
      p.2.module = "react"
        ∧ ∃ s ∈ p.2.specifiers, s.isDefault = true ∧ s.name = "React" :=
  C8_react_default_import_always_present genC9

/-- C9: for a fragment with no export syntax (and wrapping not disabled),
the assembled output contains the wrapper's invocation of the detected
component name; when no name is detectable the fixed fallback `Component`
is invoked instead of failing. -/
theorem C9_wrapper_invokes_detected_name_or_fallback (o : GenOptions)
    (hw : o.wrapComponent ≠ some false) (he : hasExportSyntax o.code = false) :
    (∀ n, detectComponentName o.code = some n →
        ∃ pre post, generateFullCode o = pre ++ componentInvocation n ++ post)
    ∧ (detectComponentName o.code = none →
        ∃ pre post,
          generateFullCode o = pre ++ componentInvocation "Component" ++ post) := by
  have hsel : ∀ nm, (detectComponentName o.code).getD "Component" = nm →
      ∃ pre post, generateFullCode o = pre ++ componentInvocation nm ++ post := by
    intro nm hnm
    refine ⟨"\n" ++ String.intercalate "\n"
        ((mergedImports o).map (fun p => generateImportStatement p.2)) ++ "\n\n" ++
        wrapHead o.code (o.mockProps.getD "\x7b\x7d"),
      wrapTailStr ++ "\n", ?_⟩
    unfold generateFullCode wrapComponentCode
    rw [if_neg hw]
    rw [if_neg (by simp [he])]
    rw [hnm]
    simp only [mergedImports]
    simp [String.append_assoc]
  constructor
  · intro n hn
    exact hsel n (by rw [hn]; rfl)
  · intro hn
    exact hsel "Component" (by rw [hn]; rfl)

/-- C9 witness: the concrete unexported fragment `function Foo() ...` is
assembled into output containing the invocation of `Foo`. -/
theorem C9_wrapper_invokes_detected_name_or_fallback_witness :
    detectComponentName fragmentC9 = some "Foo"
    ∧ ∃ pre post,
        generateFullCode genC9 = pre ++ componentInvocation "Foo" ++ post :=
  ⟨by decide,
   (C9_wrapper_invokes_detected_name_or_fallback genC9 (by decide)
     (by decide)).1 "Foo" (by decide)⟩

/-- C5: resolution is memoized by the key (module, fromFile or root) — a
cached key determines the result from the cache alone; when both the
TypeScript-config resolution and the node fallback fail the result is null;
and a null result is not fatal: every existing import still gets a merged
entry (hence an emitted statement), and the resolve plugin marks an
unresolved bare specifier as external instead of erroring. -/
theorem C5_resolver_memoized_null_nonfatal (tsR nodeR : ResolveOracle)
    (cache : List (String × String)) (m : String) (f : Option String) :
    (∀ v, lookupA cache (cacheKeyOf m f) = some v →
        resolveModulePath tsR nodeR cache m f
          = (if v = "" then none else some v, cache))
    ∧ (lookupA cache (cacheKeyOf m f) = none → tsR m f = none →
        nodeR m f = none →
        resolveModulePath tsR nodeR cache m f = (none, cache))
    ∧ (∀ ex sg ad imp, imp ∈ ex →
        importKey imp ∈ keysOf (ensureReact (mergeImportsList ex sg ad)))
    ∧ (∀ (rm : List (String × String))
        (nr : String → String → Option String) (p dir : String),
        lookupA rm p = none → jsStartsWith p "." = false →
        jsStartsWith p "/" = false → nr p dir = none →
        pluginOnResolve rm nr p dir = .externalDep) := by
  refine ⟨?_, ?_, ?_, ?_⟩
  · intro v hv
    unfold resolveModulePath
    simp [hv]
  · intro h1 h2 h3
    unfold resolveModulePath
    simp [h1, h2, h3]
  · intro ex sg ad imp h
    have hmem : imp ∈ ex ++ sg ++ ad := by
      simp [List.mem_append, h]
    have hkey : importKey imp ∈ keysOf (mergeImportsList ex sg ad) := by
      unfold mergeImportsList
      exact importKey_mem_foldl_merge hmem []
    unfold ensureReact
    by_cases hr : hasReactDefault (mergeImportsList ex sg ad)
    · rw [if_pos hr]; exact hkey
    · rw [if_neg hr]; exact mem_keysOf_mapSet _ hkey
  · intro rm nr p dir h1 h2 h3 h4
    unfold pluginOnResolve
    simp [h1, h2, h3, h4]

/-- C5 witness: a cache hit returned without consulting resolvers, a double
failure returning null, an unresolved import still merged, and an unknown
bare package marked external. -/
theorem C5_resolver_memoized_null_nonfatal_witness :
    resolveModulePath noResolve noResolve [("m:root", "P")] "m" none
      = (some "P", [("m:root", "P")])
    ∧ resolveModulePath noResolve noResolve [] "unknown-pkg" none = (none, [])
    ∧ importKey importBA ∈ keysOf (ensureReact (mergeImportsList [importBA] [] []))
    ∧ pluginOnResolve [] (fun _ _ => none) "totally-unknown-pkg" "dir"
        = .externalDep :=
  ⟨by simpa using
      (C5_resolver_memoized_null_nonfatal noResolve noResolve
        [("m:root", "P")] "m" none).1 "P" (by decide),
   (C5_resolver_memoized_null_nonfatal noResolve noResolve []
      "unknown-pkg" none).2.1 (by decide) rfl rfl,
   (C5_resolver_memoized_null_nonfatal noResolve noResolve [] "x" none).2.2.1
      [importBA] [] [] importBA (by decide),
   (C5_resolver_memoized_null_nonfatal noResolve noResolve [] "x" none).2.2.2
      [] (fun _ _ => none) "totally-unknown-pkg" "dir" (by decide)
      (by decide) (by decide) rfl⟩

/-- C10: only successful resolutions are stored — a failing resolution
returns null with the cache unchanged (no negative entry), and a cached key
is answered from the cache with the cache unchanged and without consulting
the resolution oracles. -/
theorem C10_only_successes_cached (tsR nodeR tsR2 nodeR2 : ResolveOracle)
    (cache : List (String × String)) (m : String) (f : Option String) :
    ((resolveModulePath tsR nodeR cache m f).1 = none →
        (resolveModulePath tsR nodeR cache m f).2 = cache)
    ∧ (∀ v, lookupA cache (cacheKeyOf m f) = some v →
        (resolveModulePath tsR nodeR cache m f).2 = cache
        ∧ resolveModulePath tsR nodeR cache m f
            = resolveModulePath tsR2 nodeR2 cache m f) := by
  constructor
  · intro h
    unfold resolveModulePath at h ⊢
    rcases hl : lookupA cache (cacheKeyOf m f) with _ | v
    · rcases ht : tsR m f with _ | p
      · rcases hn : nodeR m f with _ | p
        · simp [hl, ht, hn]
        · simp [hl, ht, hn] at h
      · simp [hl, ht] at h
    · simp [hl]
  · intro v hv
    constructor
    · unfold resolveModulePath
      simp [hv]
    · unfold resolveModulePath
      simp [hv]

/-- C10 witness: a failed resolution leaves an empty cache empty; a cached
entry is returned with the cache unchanged. -/
theorem C10_only_successes_cached_witness :
    (resolveModulePath noResolve noResolve [] "pkg" none).2 = []
    ∧ (resolveModulePath noResolve noResolve [("pkg:root", "P")] "pkg"
        none).2 = [("pkg:root", "P")] :=
  ⟨(C10_only_successes_cached noResolve noResolve noResolve noResolve []
      "pkg" none).1 (by decide),
   ((C10_only_successes_cached noResolve noResolve noResolve noResolve
      [("pkg:root", "P")] "pkg" none).2 "P" (by decide)).1⟩

/-- C7: compilation is a total function into structured results (thrown
build errors are caught into failure results); success implies code present,
failure implies an error message present — for `SmartCompiler.compile`
unconditionally, and for `JSXCompiler.compileJSXSnippet` failure implies an
error message, while success carries code whenever the build delivered an
output file. -/
theorem C7_compile_result_invariant (tsR nodeR : ResolveOracle)
    (relPath : String → String) (build : String → BuildOutcome)
    (projectFiles : List ProjFile) (cache : List (String × String))
    (o : SmartCompileOptions) (buildJSX : String → JsxBuildOutcome)
    (ctx : CodeContext) (snippet : JSXSnippet) :
    ((compile tsR nodeR relPath build projectFiles cache o).1.success = true →
        (compile tsR nodeR relPath build projectFiles cache o).1.code.isSome
          = true)
    ∧ ((compile tsR nodeR relPath build projectFiles cache o).1.success
          = false →
        (compile tsR nodeR relPath build projectFiles cache o).1.error.isSome
          = true)
    ∧ ((compileJSXSnippet buildJSX ctx snippet).success = false →
        (compileJSXSnippet buildJSX ctx snippet).error.isSome = true)
    ∧ (∀ w outs, buildJSX (mergeSnippetWithContext ctx snippet)
          = .done w (some outs) → outs ≠ [] →
        (compileJSXSnippet buildJSX ctx snippet).code.isSome = true) := by
  refine ⟨?_, ?_, ?_, ?_⟩
  · rcases hb : build (compilePrepare tsR nodeR relPath projectFiles cache o).1
      with msg | r
    · intro h
      simp [compile, hb] at h
    · rcases r with ⟨errs, warns, outs⟩
      cases errs with
      | cons e es =>
          intro h
          simp [compile, hb] at h
      | nil =>
          cases outs with
          | nil =>
              intro h
              simp [compile, hb] at h
          | cons t ts =>
              intro h
              simp [compile, hb]
  · rcases hb : build (compilePrepare tsR nodeR relPath projectFiles cache o).1
      with msg | r
    · intro h
      simp [compile, hb]
    · rcases r with ⟨errs, warns, outs⟩
      cases errs with
      | cons e es =>
          intro h
          simp [compile, hb]
      | nil =>
          cases outs with
          | nil =>
              intro h
              simp [compile, hb]
          | cons t ts =>
              intro h
              simp [compile, hb] at h
  · rcases hj : buildJSX (mergeSnippetWithContext ctx snippet)
      with msg | ⟨w, outsOpt⟩
    · intro h
      simp [compileJSXSnippet, hj]
    · intro h
      simp [compileJSXSnippet, hj] at h
  · intro w outs h hne
    simp only [compileJSXSnippet, h]
    cases outs with
    | nil => exact absurd rfl hne
    | cons t ts => simp

/-- C7 witness: a successful build yields a result with code; a throwing
build yields a failure result with an error; a successful snippet build with
an output file yields code. -/
theorem C7_compile_result_invariant_witness :
    (compile noResolve noResolve id buildAlwaysOk [] [] optsX).1.code.isSome
      = true
    ∧ (compile noResolve noResolve id (fun _ => .thrown "boom") [] []
        optsX).1.error.isSome = true
    ∧ (compileJSXSnippet buildJsxAlwaysOk ctxEmpty snippetY).code.isSome
        = true :=
  ⟨(C7_compile_result_invariant noResolve noResolve id buildAlwaysOk [] []
      optsX buildJsxAlwaysOk ctxEmpty snippetY).1 (by decide),
   (C7_compile_result_invariant noResolve noResolve id
      (fun _ => .thrown "boom") [] [] optsX buildJsxAlwaysOk ctxEmpty
      snippetY).2.1 (by decide),
   (C7_compile_result_invariant noResolve noResolve id buildAlwaysOk [] []
      optsX buildJsxAlwaysOk ctxEmpty snippetY).2.2.2 none ["out"] rfl
      (by decide)⟩

end PartRender
